import Mathlib

/-!
Verification of the AppleCatcher game core (src/main.rs).

Coordinates are modelled over the rationals. Each Bevy system of the `game`
module is embedded as a pure function over explicit state:

  * `apple_catching`  — collision resolver (score, despawn on catch),
  * `player_movement` — player advance, clamp, pause-key handling,
  * `apple_movement`  — falling entities, off-screen despawn,
  * `apple_spawning`  — repeating spawn timer and spawn geometry,
  * `game_setup`      — `game::setup`, spawning the player sprite.

The four gameplay systems are registered in `game_plugin` as a plain tuple
gated by `run_if (in_state Game and in_state Playing)`; a tick of the whole
app is modelled by `game_tick`, parametrised by the schedule (a list of
system identifiers) because the registration imposes no ordering among the
systems of the tuple.
-/

/-- Two-dimensional vector, as Bevy `Vec2` (here over ℚ). -/
structure Vec2 where
  x : ℚ
  y : ℚ
deriving DecidableEq

/-- Componentwise sum, Bevy `Vec2 + Vec2`. -/
def Vec2.add (a b : Vec2) : Vec2 := ⟨a.x + b.x, a.y + b.y⟩

/-- Componentwise difference, Bevy `Vec2 - Vec2`. -/
def Vec2.sub (a b : Vec2) : Vec2 := ⟨a.x - b.x, a.y - b.y⟩

/-- Componentwise product, Bevy `Vec2 * Vec2`. -/
def Vec2.hadamard (a b : Vec2) : Vec2 := ⟨a.x * b.x, a.y * b.y⟩

/-- Division of a vector by a scalar, Bevy `Vec2 / f32`. -/
def Vec2.scdiv (a : Vec2) (s : ℚ) : Vec2 := ⟨a.x / s, a.y / s⟩

/-- Axis-aligned bounding box, as `bevy::math::bounding::Aabb2d`. -/
structure Aabb2d where
  min : Vec2
  max : Vec2
deriving DecidableEq

/-- `Aabb2d::new(center, half_size)`: min = center − half, max = center + half. -/
def Aabb2d.new (center half_size : Vec2) : Aabb2d :=
  ⟨center.sub half_size, center.add half_size⟩

/-- `IntersectsVolume<Aabb2d> for Aabb2d`: interval overlap on both axes,
with closed (≤ / ≥) comparisons, exactly as in the Bevy source. -/
def Aabb2d.intersects (a b : Aabb2d) : Bool :=
  (decide (a.min.x ≤ b.max.x) && decide (a.max.x ≥ b.min.x)) &&
  (decide (a.min.y ≤ b.max.y) && decide (a.max.y ≥ b.min.y))

/-- The pause sub-state machine `PauseMode` of the app. -/
inductive PauseMode
  | Playing
  | Paused
deriving DecidableEq

/-- The player sprite: its `Transform` translation (xy), `Transform` scale
(xy, identity for the player) and its `SpriteSize` component (native texture
size). -/
structure PlayerEnt where
  translation : Vec2
  scale : Vec2
  size : Vec2
deriving DecidableEq

/-- A falling apple sprite: `Transform` translation and scale (xy) and its
`SpriteSize` component. -/
structure AppleEnt where
  translation : Vec2
  scale : Vec2
  size : Vec2
deriving DecidableEq

/-- The player AABB built in `apple_catching`:
`Aabb2d::new(translation.truncate(), (size * scale.truncate()) / 2)`. -/
def player_aabb (p : PlayerEnt) : Aabb2d :=
  Aabb2d.new p.translation ((p.size.hadamard p.scale).scdiv 2)

/-- The apple AABB built in `apple_catching`, same construction. -/
def apple_aabb (a : AppleEnt) : Aabb2d :=
  Aabb2d.new a.translation ((a.size.hadamard a.scale).scdiv 2)

/-- Whether the player AABB intersects a given apple AABB (the test
performed for each apple inside `apple_catching`). -/
def caught (p : PlayerEnt) (a : AppleEnt) : Bool :=
  (player_aabb p).intersects (apple_aabb a)

/-- System `apple_catching`: iterate over all apples; each intersecting apple
adds 1 to the scoreboard and is despawned, the others are kept. Returns the
surviving apples and the updated score. -/
def apple_catching (p : PlayerEnt) : List AppleEnt → Int → List AppleEnt × Int
  | [], score => ([], score)
  | a :: rest, score =>
    if caught p a then
      apple_catching p rest (score + 1)
    else
      let r := apple_catching p rest score
      (a :: r.1, r.2)

/-- Play-area bounds of the primary window (`window.width()`, `window.height()`). -/
structure Window where
  width : ℚ
  height : ℚ
deriving DecidableEq

/-- Keyboard snapshot consumed by `player_movement`: `pressed(KeyA)`,
`pressed(KeyD)`, `just_pressed(Escape)`. -/
structure KeyboardInput where
  aPressed : Bool
  dPressed : Bool
  escJustPressed : Bool
deriving DecidableEq

/-- `PLAYER_MOVEMENT_SPEED` constant of the `game` module. -/
def PLAYER_MOVEMENT_SPEED : ℚ := 300

/-- `APPLE_MOVEMENT_SPEED` constant of the `game` module. -/
def APPLE_MOVEMENT_SPEED : ℚ := 150

/-- The clamping step of `player_movement`: snap x back to `left_side`
(resp. `ride_side`) when it passed the corresponding bound. -/
def clamp_to_sides (window : Window) (texture_x : ℚ) (x : ℚ) : ℚ :=
  let left_side := -window.width / 2 + texture_x / 2
  let ride_side := window.width / 2 - texture_x / 2
  if x < left_side then left_side
  else if x > ride_side then ride_side
  else x

/-- System `player_movement`: if the primary-window query fails the system
returns at once (before reading the pause key). Otherwise: `A` pressed moves
left by speed·Δt, else `D` pressed moves right, else no change; then the x
coordinate is clamped to the window; finally `just_pressed(Escape)` requests
the `Paused` state. Returns the updated player and the `NextState` request. -/
def player_movement (windows : Option Window) (delta_seconds : ℚ)
    (keyboard : KeyboardInput) (player : PlayerEnt) : PlayerEnt × Option PauseMode :=
  match windows with
  | none => (player, none)
  | some window =>
    let movement := PLAYER_MOVEMENT_SPEED * delta_seconds
    let x1 :=
      if keyboard.aPressed then player.translation.x - movement
      else if keyboard.dPressed then player.translation.x + movement
      else player.translation.x
    let x2 := clamp_to_sides window player.size.x x1
    let nextPause := if keyboard.escJustPressed then some PauseMode.Paused else none
    ({ player with translation := ⟨x2, player.translation.y⟩ }, nextPause)

/-- The per-apple update of `apple_movement`:
`translation.y -= APPLE_MOVEMENT_SPEED * delta_seconds`. -/
def fall_apple (delta_seconds : ℚ) (a : AppleEnt) : AppleEnt :=
  { a with translation := ⟨a.translation.x,
      a.translation.y - APPLE_MOVEMENT_SPEED * delta_seconds⟩ }

/-- The body of `apple_movement`'s loop for one apple: move it down, then
despawn it (`none`) when `translation.y < -height/2 - (size.y * scale.y)/2`. -/
def apple_movement_step (window : Window) (delta_seconds : ℚ) (a : AppleEnt) :
    Option AppleEnt :=
  let a' := fall_apple delta_seconds a
  let bottom := -window.height / 2 - (a'.size.y * a'.scale.y) / 2
  if a'.translation.y < bottom then none else some a'

/-- System `apple_movement`: if the primary-window query fails, return at
once; otherwise run the loop body over every apple. -/
def apple_movement (windows : Option Window) (delta_seconds : ℚ)
    (apples : List AppleEnt) : List AppleEnt :=
  match windows with
  | none => apples
  | some window => apples.filterMap (apple_movement_step window delta_seconds)

/-- A repeating Bevy `Timer` (the timer of `AppleSpawnerConfig`):
a fixed duration, the elapsed accumulator, and the finished flag. -/
structure Timer where
  duration : ℚ
  elapsed : ℚ
  finished : Bool
deriving DecidableEq

/-- `Timer::tick(delta)` for a repeating timer: add delta to the elapsed
stopwatch; the timer is finished when elapsed ≥ duration, in which case the
elapsed accumulator wraps modulo the duration. -/
def Timer.tick (t : Timer) (delta : ℚ) : Timer :=
  let elapsed := t.elapsed + delta
  if t.duration ≤ elapsed then
    { duration := t.duration,
      elapsed := elapsed - t.duration * (Rat.floor (elapsed / t.duration) : ℚ),
      finished := true }
  else
    { duration := t.duration, elapsed := elapsed, finished := false }

/-- System `apple_spawning`: tick the spawn timer by Δt; when it finished,
query the window (skip on failure) and the apple texture metadata (skip when
not yet loaded), then spawn exactly one apple at
x = sample of `rng` over the closed range [−R, R] with
R = (width − texture.x/2)/2, y = height/2 + texture.y/4, scale 0.5.
`rng` stands for `rand::thread_rng().gen_range`. -/
def apple_spawning (windows : Option Window) (delta_seconds : ℚ)
    (appleTex : Option Vec2) (rng : ℚ → ℚ → ℚ) (spawner : Timer)
    (apples : List AppleEnt) : Timer × List AppleEnt :=
  let timer := spawner.tick delta_seconds
  if timer.finished then
    match windows with
    | none => (timer, apples)
    | some window =>
      match appleTex with
      | none => (timer, apples)
      | some texture_size =>
        let top := window.height / 2 + texture_size.y / 4
        let spawn_range := (window.width - texture_size.x / 2) / 2
        let spawn_x := rng (-spawn_range) spawn_range
        (timer, apples ++ [{ translation := ⟨spawn_x, top⟩,
                             scale := ⟨1 / 2, 1 / 2⟩,
                             size := texture_size }])
  else (timer, apples)

/-- `game::setup`: reads the primary window with `windows.single()` (panics
when absent) and the player texture with `assets.get(..).unwrap()` (panics
when the metadata is unavailable); on success it spawns the player sprite at
(0, −height/2 + texture.y/2) with identity scale. Panics are modelled as
`Except.error`. -/
def game_setup (windows : Option Window) (playerTex : Option Vec2) :
    Except String PlayerEnt :=
  match windows with
  | none => Except.error "no primary window"
  | some window =>
    match playerTex with
    | none => Except.error "player texture metadata unavailable"
    | some texture_size =>
      Except.ok { translation := ⟨0, -window.height / 2 + texture_size.y / 2⟩,
                  scale := ⟨1, 1⟩,
                  size := texture_size }

/-- The simulation state owned by the `game` module while a session runs:
the player, the live apples, the scoreboard and the spawn timer. -/
structure SimState where
  player : PlayerEnt
  apples : List AppleEnt
  score : Int
  spawner : Timer
deriving DecidableEq

/-- Identifiers of the four gameplay systems registered by `game_plugin`. -/
inductive SystemId
  | appleCatching
  | playerMovement
  | appleMovement
  | appleSpawning
deriving DecidableEq

/-- The external data a tick consumes: the primary-window query result, the
frame Δt, the keyboard snapshot, the apple texture metadata (if loaded), the
random source, and whether the pause overlay's Resume button fired. -/
structure TickInput where
  window : Option Window
  delta_seconds : ℚ
  keyboard : KeyboardInput
  appleTex : Option Vec2
  rng : ℚ → ℚ → ℚ
  resumePressed : Bool

/-- Run one gameplay system on the simulation state together with the
pending `NextState PauseMode` request (only `player_movement` ever sets it,
leaving an earlier request in place otherwise, as `NextState::set` does). -/
def run_system (sys : SystemId) (inp : TickInput)
    (s : SimState × Option PauseMode) : SimState × Option PauseMode :=
  match sys with
  | SystemId.appleCatching =>
    let r := apple_catching s.1.player s.1.apples s.1.score
    ({ s.1 with apples := r.1, score := r.2 }, s.2)
  | SystemId.playerMovement =>
    let r := player_movement inp.window inp.delta_seconds inp.keyboard s.1.player
    ({ s.1 with player := r.1 },
      match r.2 with
      | some p => some p
      | none => s.2)
  | SystemId.appleMovement =>
    ({ s.1 with apples := apple_movement inp.window inp.delta_seconds s.1.apples }, s.2)
  | SystemId.appleSpawning =>
    let r := apple_spawning inp.window inp.delta_seconds inp.appleTex inp.rng
      s.1.spawner s.1.apples
    ({ s.1 with spawner := r.1, apples := r.2 }, s.2)

/-- Run a schedule (a list of gameplay systems) left to right. -/
def run_systems (sched : List SystemId) (inp : TickInput)
    (s : SimState × Option PauseMode) : SimState × Option PauseMode :=
  sched.foldl (fun acc sys => run_system sys inp acc) s

/-- `pause_menu::keyboard_input`: while Paused, `just_pressed(Escape)`
requests the `Playing` state. -/
def pause_keyboard_input (keyboard : KeyboardInput) (np : Option PauseMode) :
    Option PauseMode :=
  if keyboard.escJustPressed then some PauseMode.Playing else np

/-- `pause_menu::menu_action` (Resume button): while Paused, a press of the
Resume button requests the `Playing` state. -/
def pause_menu_action (resumePressed : Bool) (np : Option PauseMode) :
    Option PauseMode :=
  if resumePressed then some PauseMode.Playing else np

/-- The whole app state while `GameState::Game` is active: the simulation
state plus the `PauseMode` state machine. -/
structure GameWorld where
  sim : SimState
  pauseMode : PauseMode
deriving DecidableEq

/-- One frame of the app while `GameState::Game` is active. While `Playing`
the gameplay systems run in the order given by `sched` (the registration
constrains no order); while `Paused` only the pause-menu systems run. The
collected `NextState` request is applied at the end of the frame. -/
def game_tick (sched : List SystemId) (inp : TickInput) (w : GameWorld) :
    GameWorld :=
  match w.pauseMode with
  | PauseMode.Playing =>
    let r := run_systems sched inp (w.sim, none)
    { sim := r.1, pauseMode := r.2.getD PauseMode.Playing }
  | PauseMode.Paused =>
    let np := pause_menu_action inp.resumePressed
      (pause_keyboard_input inp.keyboard none)
    { sim := w.sim, pauseMode := np.getD PauseMode.Paused }

/-- Iterate `game_tick` over a list of frame inputs. -/
def game_run (sched : List SystemId) (inps : List TickInput) (w : GameWorld) :
    GameWorld :=
  inps.foldl (fun acc inp => game_tick sched inp acc) w

/-- The `Playing → Paused` state transition alone (the effect of applying a
`NextState::set(Paused)` request). -/
def set_pause (w : GameWorld) : GameWorld :=
  { w with pauseMode := PauseMode.Paused }

/-- The `Paused → Playing` state transition alone (the effect of applying a
`NextState::set(Playing)` request). -/
def set_resume (w : GameWorld) : GameWorld :=
  { w with pauseMode := PauseMode.Playing }

/-- The gameplay systems in the textual order of the tuple passed to
`add_systems` in `game_plugin`. -/
def game_app_systems : List SystemId :=
  [SystemId.appleCatching, SystemId.playerMovement,
   SystemId.appleMovement, SystemId.appleSpawning]

/-- Ordering constraints imposed by the registration in `game_plugin`: the
tuple carries no `.chain()` / `.before()` / `.after()`, so none. -/
def system_order_constraints : List (SystemId × SystemId) := []

/-- `a` runs before `b` in the schedule `l`. -/
def precedes (l : List SystemId) (a b : SystemId) : Prop :=
  l.indexOf a < l.indexOf b

/-- A schedule the engine may choose for one frame: any arrangement of the
registered systems that satisfies every registered ordering constraint. -/
def valid_schedule (l : List SystemId) : Prop :=
  l.Perm game_app_systems ∧
  ∀ p ∈ system_order_constraints, precedes l p.1 p.2

/-- Bevy `ButtonInput::just_pressed` over a per-frame pressed stream: true
exactly on the frame where the key is down and was not down on the previous
frame (the flag is cleared at the end of each frame). -/
def just_pressed_stream (stream : ℕ → Bool) : ℕ → Bool
  | 0 => stream 0
  | n + 1 => stream (n + 1) && !(stream n)

theorem apple_catching_fst (p : PlayerEnt) (apples : List AppleEnt) (score : Int) :
    (apple_catching p apples score).1 = apples.filter (fun a => !(caught p a)) := by
  induction apples generalizing score with
  | nil => rfl
  | cons a rest ih =>
    by_cases h : caught p a
    · simp [apple_catching, h, ih]
    · simp only [Bool.not_eq_true] at h
      simp [apple_catching, h, ih]

theorem apple_catching_snd (p : PlayerEnt) (apples : List AppleEnt) (score : Int) :
    (apple_catching p apples score).2 = score + (apples.filter (caught p)).length := by
  induction apples generalizing score with
  | nil => simp [apple_catching]
  | cons a rest ih =>
    by_cases h : caught p a
    · simp [apple_catching, h, ih]
      ring
    · simp only [Bool.not_eq_true] at h
      simp [apple_catching, h, ih]

theorem caught_iff_abs (p : PlayerEnt) (a : AppleEnt) :
    caught p a = true ↔
      (|a.translation.x - p.translation.x| ≤
          (p.size.x * p.scale.x) / 2 + (a.size.x * a.scale.x) / 2 ∧
       |a.translation.y - p.translation.y| ≤
          (p.size.y * p.scale.y) / 2 + (a.size.y * a.scale.y) / 2) := by
  simp only [caught, player_aabb, apple_aabb, Aabb2d.new, Aabb2d.intersects,
    Vec2.sub, Vec2.add, Vec2.hadamard, Vec2.scdiv, Bool.and_eq_true,
    decide_eq_true_eq, ge_iff_le, abs_le]
  constructor
  · rintro ⟨⟨hx1, hx2⟩, hy1, hy2⟩
    constructor <;> constructor <;> linarith
  · rintro ⟨⟨hx1, hx2⟩, hy1, hy2⟩
    refine ⟨⟨?_, ?_⟩, ?_, ?_⟩ <;> linarith

/-- C1: `apple_catching` tests the player AABB against every live apple AABB
with the closed test (on both axes |centerA − centerB| ≤ halfA + halfB, the
half-extents being size·scale/2); each intersecting apple adds exactly 1 to
the score and is removed, so n overlapping apples in one tick add exactly n. -/
theorem c1_apple_catching_spec (p : PlayerEnt) (apples : List AppleEnt) (score : Int) :
    (apple_catching p apples score).2 = score + (apples.filter (caught p)).length ∧
    (apple_catching p apples score).1 = apples.filter (fun a => !(caught p a)) ∧
    ∀ a : AppleEnt, caught p a = true ↔
      (|a.translation.x - p.translation.x| ≤
          (p.size.x * p.scale.x) / 2 + (a.size.x * a.scale.x) / 2 ∧
       |a.translation.y - p.translation.y| ≤
          (p.size.y * p.scale.y) / 2 + (a.size.y * a.scale.y) / 2) :=
  ⟨apple_catching_snd p apples score, apple_catching_fst p apples score,
    fun a => caught_iff_abs p a⟩

theorem clamp_to_sides_mem (window : Window) (texture_x x : ℚ)
    (hsize : texture_x ≤ window.width) :
    -window.width / 2 + texture_x / 2 ≤ clamp_to_sides window texture_x x ∧
    clamp_to_sides window texture_x x ≤ window.width / 2 - texture_x / 2 := by
  simp only [clamp_to_sides]
  split_ifs with h1 h2 <;> constructor <;> linarith

/-- C2: after every `player_movement` update with the window available, the
player's x lies within [−width/2 + halfExtent.x, width/2 − halfExtent.x],
for every input snapshot and every Δt ≥ 0 (when the player sprite fits the
window horizontally). -/
theorem c2_player_movement_clamped (window : Window) (delta_seconds : ℚ)
    (keyboard : KeyboardInput) (player : PlayerEnt)
    (hdt : 0 ≤ delta_seconds) (hsize : player.size.x ≤ window.width) :
    -window.width / 2 + player.size.x / 2 ≤
      ((player_movement (some window) delta_seconds keyboard player).1).translation.x ∧
    ((player_movement (some window) delta_seconds keyboard player).1).translation.x ≤
      window.width / 2 - player.size.x / 2 := by
  simp only [player_movement]
  exact clamp_to_sides_mem window player.size.x _ hsize

/-- Witness for C2 at concrete input: window 800×600, sprite width 32,
player at the origin, Δt = 0, no keys. -/
theorem c2_player_movement_clamped_witness :
    (0 : ℚ) ≤ 0 ∧ (32 : ℚ) ≤ 800 ∧
    (-(800 : ℚ) / 2 + 32 / 2 ≤
      ((player_movement (some ⟨800, 600⟩) 0 ⟨false, false, false⟩
        ⟨⟨0, 0⟩, ⟨1, 1⟩, ⟨32, 32⟩⟩).1).translation.x ∧
     ((player_movement (some ⟨800, 600⟩) 0 ⟨false, false, false⟩
        ⟨⟨0, 0⟩, ⟨1, 1⟩, ⟨32, 32⟩⟩).1).translation.x ≤ (800 : ℚ) / 2 - 32 / 2) :=
  ⟨le_refl 0, by norm_num,
    c2_player_movement_clamped ⟨800, 600⟩ 0 ⟨false, false, false⟩
      ⟨⟨0, 0⟩, ⟨1, 1⟩, ⟨32, 32⟩⟩ (le_refl 0) (by norm_num)⟩

/-- C3 counterexample: with BOTH direction keys held (window 1000×600, sprite
32×32, Δt = 1, player at x = 0) the position changes — the `if / else if` in
`player_movement` gives the `A` key precedence, so the player moves left by
speed·Δt instead of standing still as the claim requires. -/
theorem c3_both_keys_counterexample :
    ¬ (((player_movement (some ⟨1000, 600⟩) 1 ⟨true, true, false⟩
          ⟨⟨0, 0⟩, ⟨1, 1⟩, ⟨32, 32⟩⟩).1).translation.x = 0) := by
  norm_num [player_movement, clamp_to_sides, PLAYER_MOVEMENT_SPEED]

/-- C3 (amended): if the left key (`A`) is held — regardless of the right
key — the player advances by −speed·Δt before clamping; if only the right
key (`D`) is held, by +speed·Δt; if neither is held and the player starts
within the clamp bounds, its position is unchanged for every Δt. -/
theorem c3_player_movement_direction (window : Window) (delta_seconds : ℚ)
    (keyboard : KeyboardInput) (player : PlayerEnt) :
    ((player_movement (some window) delta_seconds keyboard player).1).translation.x =
      clamp_to_sides window player.size.x
        (if keyboard.aPressed then
           player.translation.x - PLAYER_MOVEMENT_SPEED * delta_seconds
         else if keyboard.dPressed then
           player.translation.x + PLAYER_MOVEMENT_SPEED * delta_seconds
         else player.translation.x) ∧
    (keyboard.aPressed = false → keyboard.dPressed = false →
      -window.width / 2 + player.size.x / 2 ≤ player.translation.x →
      player.translation.x ≤ window.width / 2 - player.size.x / 2 →
      ((player_movement (some window) delta_seconds keyboard player).1).translation =
        player.translation) := by
  constructor
  · simp only [player_movement]
  · intro ha hd h1 h2
    simp only [player_movement, ha, hd, if_false, clamp_to_sides]
    have hnl : ¬ player.translation.x < -window.width / 2 + player.size.x / 2 :=
      not_lt.mpr h1
    have hnr : ¬ player.translation.x > window.width / 2 - player.size.x / 2 :=
      not_lt.mpr h2
    simp [hnl, hnr]

/-- Witness for C3's amended theorem: window 800×600, sprite 32×32, player at
the origin, no keys held, Δt = 2. -/
theorem c3_player_movement_direction_witness :
    ((player_movement (some ⟨800, 600⟩) 2 ⟨false, false, false⟩
        ⟨⟨0, 0⟩, ⟨1, 1⟩, ⟨32, 32⟩⟩).1).translation = ⟨0, 0⟩ :=
  (c3_player_movement_direction ⟨800, 600⟩ 2 ⟨false, false, false⟩
      ⟨⟨0, 0⟩, ⟨1, 1⟩, ⟨32, 32⟩⟩).2 rfl rfl (by norm_num) (by norm_num)

theorem apple_movement_despawn (window : Window) (delta_seconds : ℚ)
    (apples : List AppleEnt) :
    apple_movement (some window) delta_seconds apples =
      (apples.map (fall_apple delta_seconds)).filter
        (fun a => !(decide (a.translation.y < -window.height / 2 -
          (a.size.y * a.scale.y) / 2))) := by
  induction apples with
  | nil => rfl
  | cons a rest ih =>
    simp only [apple_movement] at ih
    simp only [apple_movement, List.filterMap_cons, List.map_cons,
      List.filter_cons]
    by_cases h : (fall_apple delta_seconds a).translation.y <
        -window.height / 2 -
          ((fall_apple delta_seconds a).size.y *
            (fall_apple delta_seconds a).scale.y) / 2
    · have hstep : apple_movement_step window delta_seconds a = none := by
        simp only [apple_movement_step, if_pos h]
      simp [hstep, ih, h]
    · have hstep : apple_movement_step window delta_seconds a =
          some (fall_apple delta_seconds a) := by
        simp only [apple_movement_step, if_neg h]
      simp [hstep, ih, h]

/-- C5: during every `apple_movement` update each apple's y decreases by
fallSpeed·Δt (x unchanged); an apple is removed exactly when the top of its
scale-adjusted bounding box is below the visible bottom edge of the play
area (the code's despawn test is equivalent to
`y + (size.y·scale.y)/2 < -height/2`); and the `apple_movement` system
leaves the score unchanged. -/
theorem c5_apple_movement_spec (window : Window) (delta_seconds : ℚ)
    (apples : List AppleEnt) :
    (∀ a : AppleEnt,
      (fall_apple delta_seconds a).translation.y =
        a.translation.y - APPLE_MOVEMENT_SPEED * delta_seconds ∧
      (fall_apple delta_seconds a).translation.x = a.translation.x) ∧
    apple_movement (some window) delta_seconds apples =
      (apples.map (fall_apple delta_seconds)).filter
        (fun a => !(decide (a.translation.y < -window.height / 2 -
          (a.size.y * a.scale.y) / 2))) ∧
    (∀ a : AppleEnt,
      a.translation.y < -window.height / 2 - (a.size.y * a.scale.y) / 2 ↔
      a.translation.y + (a.size.y * a.scale.y) / 2 < -window.height / 2) ∧
    ∀ (inp : TickInput) (s : SimState × Option PauseMode),
      ((run_system SystemId.appleMovement inp s).1).score = s.1.score :=
  ⟨fun _ => ⟨rfl, rfl⟩, apple_movement_despawn window delta_seconds apples,
    fun a => ⟨fun h => by linarith, fun h => by linarith⟩, fun _ _ => rfl⟩

theorem timer_tick_finished (spawner : Timer) (delta_seconds : ℚ)
    (hfire : spawner.duration ≤ spawner.elapsed + delta_seconds) :
    (spawner.tick delta_seconds).finished = true := by
  simp only [Timer.tick, if_pos hfire]

/-- C4: on a tick where the spawn timer's elapsed accumulator reaches its
interval (window and texture metadata available), exactly one apple is
appended, its x being the `rng` sample over the closed range [−R, R] with
R = (width − texture.x/2)/2, its y = height/2 + texture.y/4, its scale 0.5
on the native texture size. -/
theorem c4_apple_spawning_spec (window : Window) (tex : Vec2)
    (delta_seconds : ℚ) (rng : ℚ → ℚ → ℚ) (spawner : Timer)
    (apples : List AppleEnt)
    (hfire : spawner.duration ≤ spawner.elapsed + delta_seconds)
    (hrng : ∀ lo hi : ℚ, lo ≤ hi → lo ≤ rng lo hi ∧ rng lo hi ≤ hi)
    (htex : tex.x / 2 ≤ window.width) :
    ∃ apple : AppleEnt,
      apple_spawning (some window) delta_seconds (some tex) rng spawner apples =
        (spawner.tick delta_seconds, apples ++ [apple]) ∧
      -((window.width - tex.x / 2) / 2) ≤ apple.translation.x ∧
      apple.translation.x ≤ (window.width - tex.x / 2) / 2 ∧
      apple.translation.y = window.height / 2 + tex.y / 4 ∧
      apple.scale = ⟨1 / 2, 1 / 2⟩ ∧
      apple.size = tex := by
  have hfin := timer_tick_finished spawner delta_seconds hfire
  have hR : -((window.width - tex.x / 2) / 2) ≤ (window.width - tex.x / 2) / 2 := by
    linarith
  obtain ⟨hlo, hhi⟩ :=
    hrng (-((window.width - tex.x / 2) / 2)) ((window.width - tex.x / 2) / 2) hR
  refine ⟨{ translation := ⟨rng (-((window.width - tex.x / 2) / 2))
              ((window.width - tex.x / 2) / 2), window.height / 2 + tex.y / 4⟩,
            scale := ⟨1 / 2, 1 / 2⟩, size := tex }, ?_, hlo, hhi, rfl, rfl, rfl⟩
  simp only [apple_spawning, hfin, if_true]

/-- Witness for C4: interval 1.75 with 1.7 already elapsed, Δt = 0.1
(the spec's 18-tick scenario), window 800×600, texture 32×32, the midpoint
sampler. -/
theorem c4_apple_spawning_spec_witness :
    (7 / 4 : ℚ) ≤ 17 / 10 + 1 / 10 ∧
    (32 : ℚ) / 2 ≤ 800 ∧
    (∃ apple : AppleEnt,
      apple_spawning (some ⟨800, 600⟩) (1 / 10) (some ⟨32, 32⟩)
          (fun lo hi => (lo + hi) / 2) ⟨7 / 4, 17 / 10, false⟩ [] =
        (Timer.tick ⟨7 / 4, 17 / 10, false⟩ (1 / 10), [] ++ [apple]) ∧
      -(((800 : ℚ) - 32 / 2) / 2) ≤ apple.translation.x ∧
      apple.translation.x ≤ ((800 : ℚ) - 32 / 2) / 2 ∧
      apple.translation.y = (600 : ℚ) / 2 + 32 / 4 ∧
      apple.scale = ⟨1 / 2, 1 / 2⟩ ∧
      apple.size = ⟨32, 32⟩) :=
  ⟨by norm_num, by norm_num,
    c4_apple_spawning_spec ⟨800, 600⟩ ⟨32, 32⟩ (1 / 10)
      (fun lo hi => (lo + hi) / 2) ⟨7 / 4, 17 / 10, false⟩ []
      (by norm_num) (fun lo hi h => by constructor <;> simp <;> linarith)
      (by norm_num)⟩

/-- C8 counterexample: with the window present but the player texture
metadata unavailable, `game::setup` does not skip the operation — it unwraps
the asset lookup, a fatal panic (modelled as an error), so the unavailability
IS propagated as a fatal error in the core. -/
theorem c8_setup_unwrap_counterexample :
    game_setup (some ⟨800, 600⟩) none =
      Except.error "player texture metadata unavailable" := rfl

/-- C8 (amended): when the apple texture metadata is unavailable the spawner
skips spawning for that tick (no entity, no error), but `game::setup`
unwraps the player texture lookup, which is fatal whenever that metadata is
unavailable. -/
theorem c8_missing_metadata (windows : Option Window) (delta_seconds : ℚ)
    (rng : ℚ → ℚ → ℚ) (spawner : Timer) (apples : List AppleEnt) :
    (apple_spawning windows delta_seconds none rng spawner apples).2 = apples ∧
    (∀ window : Window,
      game_setup (some window) none =
        Except.error "player texture metadata unavailable") := by
  constructor
  · simp only [apple_spawning]
    split
    · cases windows with
      | none => rfl
      | some w => rfl
    · rfl
  · intro window
    rfl

theorem run_system_snd (sys : SystemId) (inp : TickInput)
    (s : SimState × Option PauseMode)
    (h : inp.keyboard.escJustPressed = false ∨ inp.window = none) :
    (run_system sys inp s).2 = s.2 := by
  cases sys with
  | appleCatching => rfl
  | appleMovement => rfl
  | appleSpawning => rfl
  | playerMovement =>
    simp only [run_system]
    rcases h with h | h
    · cases hw : inp.window with
      | none => simp [player_movement, hw]
      | some w => simp [player_movement, hw, h]
    · simp [player_movement, h]

theorem run_systems_snd (sched : List SystemId) (inp : TickInput)
    (s : SimState × Option PauseMode)
    (h : inp.keyboard.escJustPressed = false ∨ inp.window = none) :
    (run_systems sched inp s).2 = s.2 := by
  induction sched generalizing s with
  | nil => rfl
  | cons sys rest ih =>
    have h1 := run_system_snd sys inp s h
    have h2 := ih (run_system sys inp s)
    simp only [run_systems, List.foldl_cons] at h2 ⊢
    rw [h2, h1]

theorem game_run_paused (sched : List SystemId) (inps : List TickInput) :
    ∀ w : GameWorld, w.pauseMode = PauseMode.Paused →
    (∀ inp ∈ inps,
      inp.keyboard.escJustPressed = false ∧ inp.resumePressed = false) →
    game_run sched inps w = w := by
  induction inps with
  | nil =>
    intro w _ _
    rfl
  | cons inp rest ih =>
    intro w hp hq
    have he := (hq inp (List.mem_cons_self _ _)).1
    have hr := (hq inp (List.mem_cons_self _ _)).2
    have ht : game_tick sched inp w = w := by
      obtain ⟨sim, pm⟩ := w
      cases pm
      · exact PauseMode.noConfusion hp
      · simp [game_tick, pause_menu_action, pause_keyboard_input, he, hr]
    simp only [game_run, List.foldl_cons]
    rw [ht]
    exact ih w hp (fun i hi => hq i (List.mem_cons_of_mem _ hi))

/-- C6: while Paused no simulation system runs — across any number of frames
(with the pause key not freshly pressed and Resume not clicked, so the phase
stays Paused) the player, the apples, the score and the spawn timer are all
unchanged; and `pause()` followed by `resume()` with nothing in between
leaves the whole simulation state identical. -/
theorem c6_paused_freezes (sched : List SystemId) (inps : List TickInput)
    (w : GameWorld) (hp : w.pauseMode = PauseMode.Paused)
    (hq : ∀ inp ∈ inps,
      inp.keyboard.escJustPressed = false ∧ inp.resumePressed = false) :
    game_run sched inps w = w ∧ (set_resume (set_pause w)).sim = w.sim :=
  ⟨game_run_paused sched inps w hp hq, rfl⟩

/-- Witness for C6: a concrete paused world stepped through one frame with
Δt = 1/10. -/
theorem c6_paused_freezes_witness :
    (GameWorld.mk ⟨⟨⟨0, 0⟩, ⟨1, 1⟩, ⟨32, 32⟩⟩,
        [⟨⟨5, 100⟩, ⟨1 / 2, 1 / 2⟩, ⟨32, 32⟩⟩], 3, ⟨7 / 4, 1 / 2, false⟩⟩
      PauseMode.Paused).pauseMode = PauseMode.Paused ∧
    game_run game_app_systems
      [⟨some ⟨800, 600⟩, 1 / 10, ⟨true, false, false⟩, some ⟨32, 32⟩,
        fun lo _ => lo, false⟩]
      (GameWorld.mk ⟨⟨⟨0, 0⟩, ⟨1, 1⟩, ⟨32, 32⟩⟩,
        [⟨⟨5, 100⟩, ⟨1 / 2, 1 / 2⟩, ⟨32, 32⟩⟩], 3, ⟨7 / 4, 1 / 2, false⟩⟩
      PauseMode.Paused) =
    GameWorld.mk ⟨⟨⟨0, 0⟩, ⟨1, 1⟩, ⟨32, 32⟩⟩,
        [⟨⟨5, 100⟩, ⟨1 / 2, 1 / 2⟩, ⟨32, 32⟩⟩], 3, ⟨7 / 4, 1 / 2, false⟩⟩
      PauseMode.Paused :=
  ⟨rfl,
    (c6_paused_freezes game_app_systems _ _ rfl
      (by
        intro i hi
        simp only [List.mem_singleton] at hi
        subst hi
        exact ⟨rfl, rfl⟩)).1⟩

/-- C7 counterexample: the claimed fixed order Movement → Spawn → Collision
is not imposed by the registration — `game_app_systems` itself (the textual
tuple order, with `apple_catching` first) is a valid schedule in which the
collision resolver does not come after the spawner. -/
theorem c7_fixed_order_counterexample :
    ¬ (∀ l : List SystemId, valid_schedule l →
        precedes l SystemId.playerMovement SystemId.appleSpawning ∧
        precedes l SystemId.appleMovement SystemId.appleSpawning ∧
        precedes l SystemId.appleSpawning SystemId.appleCatching) := by
  intro hcl
  have hv : valid_schedule game_app_systems := by
    refine ⟨List.Perm.refl _, ?_⟩
    intro p hp
    exact absurd hp (List.not_mem_nil p)
  have hbad := (hcl game_app_systems hv).2.2
  unfold precedes at hbad
  exact absurd hbad (by decide)

/-- C7 (amended): the four gameplay systems are registered with no ordering
constraints, so every arrangement of them is a valid schedule for a frame:
both the spec's Movement → Spawn → Collision order and the reverse-collision
order of the registration tuple are possible; no fixed order is imposed.
(Each system still gets exclusive sequential access within a modelled tick,
which applies the scheduled systems one after the other.) -/
theorem c7_no_fixed_order (l : List SystemId) :
    system_order_constraints = [] ∧
    (l.Perm game_app_systems → valid_schedule l) ∧
    valid_schedule [SystemId.playerMovement, SystemId.appleMovement,
      SystemId.appleSpawning, SystemId.appleCatching] ∧
    valid_schedule game_app_systems ∧
    precedes [SystemId.playerMovement, SystemId.appleMovement,
      SystemId.appleSpawning, SystemId.appleCatching]
      SystemId.appleSpawning SystemId.appleCatching ∧
    precedes game_app_systems SystemId.appleCatching SystemId.appleSpawning := by
  refine ⟨rfl, ?_, ⟨by decide, ?_⟩, ⟨List.Perm.refl _, ?_⟩,
    by unfold precedes; decide, by unfold precedes; decide⟩
  · intro hperm
    exact ⟨hperm, fun p hp => absurd hp (List.not_mem_nil p)⟩
  · intro p hp
    exact absurd hp (List.not_mem_nil p)
  · intro p hp
    exact absurd hp (List.not_mem_nil p)

/-- Witness for C7's amended theorem: a concrete reordering of the four
systems is a valid schedule. -/
theorem c7_no_fixed_order_witness :
    valid_schedule [SystemId.appleSpawning, SystemId.playerMovement,
      SystemId.appleMovement, SystemId.appleCatching] :=
  (c7_no_fixed_order [SystemId.appleSpawning, SystemId.playerMovement,
      SystemId.appleMovement, SystemId.appleCatching]).2.1 (by decide)

/-- C9: the Playing → Paused transition is edge-triggered — `just_pressed`
is false on any frame whose previous frame already had the key down, a frame
without a fresh press (and without Resume) never changes the phase, and a
frame that moves Playing to Paused must have the pause key freshly
pressed. -/
theorem c9_pause_edge_triggered (stream : ℕ → Bool) (i : ℕ)
    (h1 : stream i = true) (h2 : stream (i + 1) = true) :
    just_pressed_stream stream (i + 1) = false ∧
    (∀ (sched : List SystemId) (inp : TickInput) (w : GameWorld),
      inp.keyboard.escJustPressed = false → inp.resumePressed = false →
      (game_tick sched inp w).pauseMode = w.pauseMode) ∧
    (∀ (sched : List SystemId) (inp : TickInput) (w : GameWorld),
      w.pauseMode = PauseMode.Playing →
      (game_tick sched inp w).pauseMode = PauseMode.Paused →
      inp.keyboard.escJustPressed = true) := by
  refine ⟨?_, ?_, ?_⟩
  · simp [just_pressed_stream, h1, h2]
  · intro sched inp w he hr
    obtain ⟨sim, pm⟩ := w
    cases pm
    · simp only [game_tick]
      rw [run_systems_snd sched inp (sim, none) (Or.inl he)]
      rfl
    · simp [game_tick, pause_menu_action, pause_keyboard_input, he, hr]
  · intro sched inp w hp hq
    obtain ⟨sim, pm⟩ := w
    cases pm
    · by_contra hesc
      simp only [Bool.not_eq_true] at hesc
      simp only [game_tick] at hq
      rw [run_systems_snd sched inp (sim, none) (Or.inl hesc)] at hq
      exact PauseMode.noConfusion hq
    · exact PauseMode.noConfusion hp

/-- Witness for C9: the all-held key stream; the press is not fresh on frame
1, so `just_pressed` reports false there. -/
theorem c9_pause_edge_triggered_witness :
    (fun _ : ℕ => true) 0 = true ∧ (fun _ : ℕ => true) 1 = true ∧
    just_pressed_stream (fun _ : ℕ => true) 1 = false :=
  ⟨rfl, rfl, (c9_pause_edge_triggered (fun _ => true) 0 rfl rfl).1⟩

/-- C10: when the primary-window query fails, `player_movement` returns
before it reads the pause key: the player is untouched and NO pause request
is produced even though Escape was freshly pressed; consequently a Playing
frame without a window stays Playing. -/
theorem c10_window_gates_pause (delta_seconds : ℚ) (keyboard : KeyboardInput)
    (player : PlayerEnt) (hesc : keyboard.escJustPressed = true) :
    player_movement none delta_seconds keyboard player = (player, none) ∧
    (∀ (sched : List SystemId) (inp : TickInput) (w : GameWorld),
      w.pauseMode = PauseMode.Playing → inp.window = none →
      (game_tick sched inp w).pauseMode = PauseMode.Playing) := by
  refine ⟨rfl, ?_⟩
  intro sched inp w hp hw
  obtain ⟨sim, pm⟩ := w
  cases pm
  · simp only [game_tick]
    rw [run_systems_snd sched inp (sim, none) (Or.inr hw)]
    rfl
  · exact PauseMode.noConfusion hp

/-- Witness for C10: Escape freshly pressed, window query failed. -/
theorem c10_window_gates_pause_witness :
    player_movement none 1 ⟨false, false, true⟩ ⟨⟨0, 0⟩, ⟨1, 1⟩, ⟨32, 32⟩⟩ =
      (⟨⟨0, 0⟩, ⟨1, 1⟩, ⟨32, 32⟩⟩, none) :=
  (c10_window_gates_pause 1 ⟨false, false, true⟩
      ⟨⟨0, 0⟩, ⟨1, 1⟩, ⟨32, 32⟩⟩ rfl).1
